import Mathlib

/-!
Verification of the confluence-mcp core: a shallow embedding of the
response-normalization layer (`src/services/confluence-api.ts`) and the
content-cleaning utilities (`src/utils/content-cleaner.ts`), together with
theorems settling the behavioural claims about them.

JavaScript runtime values are modelled by `Json` (parsed JSON data) plus
`JsVal := Option Json`, where `none` plays the role of `undefined`.
Property accesses that throw a `TypeError` in JavaScript (member access on
`null`/`undefined`, calling a method that does not exist on the receiver)
are modelled in the `Except Unit` monad.
-/

/-- Parsed JSON data, the value domain of the service's responses. -/
inductive Json where
  | null
  | bool (b : Bool)
  | num (n : Int)
  | str (s : String)
  | arr (elems : List Json)
  | obj (fields : List (String × Json))

/-- A JavaScript value: `none` is `undefined`, `some j` is the JSON value `j`. -/
abbrev JsVal := Option Json

/-- JavaScript truthiness of a value. -/
def truthy : JsVal → Bool
  | none => false
  | some .null => false
  | some (.bool b) => b
  | some (.num n) => n != 0
  | some (.str s) => s != ""
  | some (.arr _) => true
  | some (.obj _) => true

/-- Whether a value is `null` or `undefined` (the short-circuit test of `?.`). -/
def nullish : JsVal → Bool
  | none => true
  | some .null => true
  | _ => false

/-- `a || b` on JavaScript values. -/
def jsOrV (a b : JsVal) : JsVal := if truthy a then a else b

/-- `a || d` where the default is a proper value (e.g. `x || ''`, `x || 1`). -/
def jsOr (a : JsVal) (d : Json) : Json :=
  match a with
  | some j => if truthy (some j) then j else d
  | none => d

/-- Property read `v?.k`, i.e. member access guarded by an optional chain:
`undefined` when the receiver is nullish, the field for objects, `length`
for arrays and strings, `undefined` for other primitives.  Never throws. -/
def jsChain (v : JsVal) (k : String) : JsVal :=
  match v with
  | none => none
  | some .null => none
  | some (.obj fs) => fs.lookup k
  | some (.arr xs) => if k = "length" then some (.num xs.length) else none
  | some (.str s) => if k = "length" then some (.num s.length) else none
  | some _ => none

/-- Plain property read `v.k`: as `jsChain`, but a `TypeError` (modelled as
`Except.error ()`) when the receiver is `null` or `undefined`. -/
def jsMember (v : JsVal) (k : String) : Except Unit JsVal :=
  if nullish v then .error () else .ok (jsChain v k)

/-- JavaScript `ToNumber` on the JSON data shapes the service returns
(`none` stands for `NaN`; array/object coercion is approximated as `NaN`). -/
def jsToNumber : Json → Option Int
  | .num n => some n
  | .bool b => some (if b then 1 else 0)
  | .null => some 0
  | .str s => s.toInt?
  | .arr _ => none
  | .obj _ => none

/-- `ToNumber` lifted to values; `undefined` coerces to `NaN`. -/
def jsToNumberV : JsVal → Option Int
  | none => none
  | some j => jsToNumber j

/-- The comparison `v > 0` (`NaN` comparisons are false). -/
def jsGtZero (v : JsVal) : Bool :=
  match jsToNumberV v with
  | some n => decide (0 < n)
  | none => false

/-- Indexing `v[i]` with a numeric index; throws on a nullish receiver. -/
def jsIndexE (v : JsVal) (i : Int) : Except Unit JsVal :=
  match v with
  | none => .error ()
  | some .null => .error ()
  | some (.arr xs) => .ok (if 0 ≤ i then xs.get? i.toNat else none)
  | some (.str s) =>
      .ok ((if 0 ≤ i then s.data.get? i.toNat else none).map
        (fun c => .str (String.mk [c])))
  | some (.obj fs) => .ok (fs.lookup (toString i))
  | some _ => .ok none

/-- Stringification of primitives as they appear inside an array being
joined by `Array.prototype.toString` (`null`/`undefined` join as `""`). -/
def displayInArr : Json → String
  | .null => ""
  | .bool true => "true"
  | .bool false => "false"
  | .num n => toString n
  | .str s => s
  | .arr _ => ""
  | .obj _ => "[object Object]"

/-- Template-literal stringification `${j}` of a JSON value (nested array
stringification is approximated at depth one). -/
def jsonToDisplay : Json → String
  | .null => "null"
  | .bool true => "true"
  | .bool false => "false"
  | .num n => toString n
  | .str s => s
  | .arr xs => String.intercalate "," (xs.map displayInArr)
  | .obj _ => "[object Object]"

/-- Template-literal stringification `${v}` of a JavaScript value. -/
def jsValDisplay : JsVal → String
  | none => "undefined"
  | some j => jsonToDisplay j

/-! ## Content cleaner: `src/utils/content-cleaner.ts` -/

/-- The character class `\s` of the JavaScript regexes used by the cleaner
(ASCII fragment). -/
def jsIsWs (c : Char) : Bool :=
  c = ' ' || c = '\t' || c = '\n' || c = '\r' || c = '\x0b' || c = '\x0c'

/-- One global pass of `replace(/<[^>]*>/g, rep)`: a `<` opens a tag only if
a `>` follows somewhere later (the regex needs the closing `>`); the tag
body may contain anything but `>`.  The `Bool` records being inside a tag. -/
def stripTagsAux (rep : List Char) : Bool → List Char → List Char
  | _, [] => []
  | true, c :: rest =>
      if c = '>' then stripTagsAux rep false rest else stripTagsAux rep true rest
  | false, c :: rest =>
      if c = '<' && rest.contains '>' then rep ++ stripTagsAux rep true rest
      else c :: stripTagsAux rep false rest

/-- One global pass of `replace(/\s+/g, ' ')`; the `Bool` records whether the
previous character was whitespace (so the run is already collapsed). -/
def collapseWsAux : List Char → Bool → List Char
  | [], _ => []
  | c :: rest, prev =>
      if jsIsWs c then
        if prev then collapseWsAux rest true else ' ' :: collapseWsAux rest true
      else c :: collapseWsAux rest false

/-- JavaScript `String.prototype.trim` (ASCII whitespace). -/
def jsTrim (l : List Char) : List Char :=
  ((l.dropWhile jsIsWs).reverse.dropWhile jsIsWs).reverse

/-- `extractTextContent` of `ConfluenceApiService`:
`content.replace(/<[^>]*>/g, ' ').replace(/\s+/g, ' ').trim()`. -/
def extractTextContent (content : String) : String :=
  String.mk (jsTrim (collapseWsAux (stripTagsAux [' '] false content.data) false))

/-- `content.lastIndexOf(' ', k)`: the largest index `i ≤ k` holding a space. -/
def lastIndexOfSpace (cs : List Char) : Nat → Option Nat
  | 0 => if cs.get? 0 = some ' ' then some 0 else none
  | k + 1 =>
      if cs.get? (k + 1) = some ' ' then some (k + 1) else lastIndexOfSpace cs k

/-- `truncateContent` of `content-cleaner.ts`: return short content as is;
otherwise cut at `lastIndexOf(' ', maxLength)` and append `'...'`, or
hard-cut at `maxLength` when no space was found. -/
def truncateContent (content : String) (maxLength : Nat := 8000) : String :=
  if content.length ≤ maxLength then content
  else
    match lastIndexOfSpace content.data maxLength with
    | none => String.mk (content.data.take maxLength)
    | some breakPoint => String.mk (content.data.take breakPoint) ++ "..."

/-- `optimizeForAI` of `content-cleaner.ts`: a direct call to
`truncateContent(content)` at the default bound. -/
def optimizeForAI (content : String) : String :=
  truncateContent content

/-- Scan `[^>]*>` after an already-matched opening literal: skip to just
after the first `>`, failing when the input has no `>`. -/
def skipAttrs : List Char → Option (List Char)
  | [] => none
  | c :: rest => if c = '>' then some rest else skipAttrs rest

/-- The lazy capture `(.*?)` up to a closing literal: the capture stops at
the first occurrence of `closeLit` and may not contain a newline (the
regexes have no `s` flag).  Returns the capture and the remainder. -/
def findCloseCapture (closeLit : List Char) : List Char → Option (List Char × List Char)
  | [] => none
  | c :: rest =>
      if closeLit.isPrefixOf (c :: rest) then
        some ([], (c :: rest).drop closeLit.length)
      else if c = '\n' then none
      else
        match findCloseCapture closeLit rest with
        | some (cap, rem) => some (c :: cap, rem)
        | none => none

/-- One global pass of `replace(/<TAG[^>]*>(.*?)<\/TAG>/g, pre ++ $1 ++ post)`.
On a failed match attempt the scan restarts one character later, exactly as
the regex engine does.  Fuel bounds the recursion; every step strictly
shortens the input, so `length + 1` fuel never runs out. -/
def replaceTaggedAux (openLit closeLit pre post : List Char) : Nat → List Char → List Char
  | 0, l => l
  | _ + 1, [] => []
  | fuel + 1, c :: rest =>
      if openLit.isPrefixOf (c :: rest) then
        match skipAttrs ((c :: rest).drop openLit.length) with
        | some afterOpen =>
            match findCloseCapture closeLit afterOpen with
            | some (cap, rem) =>
                pre ++ cap ++ post ++ replaceTaggedAux openLit closeLit pre post fuel rem
            | none => c :: replaceTaggedAux openLit closeLit pre post fuel rest
        | none => c :: replaceTaggedAux openLit closeLit pre post fuel rest
      else c :: replaceTaggedAux openLit closeLit pre post fuel rest

/-- The pass for one tag pair, e.g. `replaceTagged "h1" "# " ""`. -/
def replaceTagged (tag : String) (pre post : String) (l : List Char) : List Char :=
  replaceTaggedAux ('<' :: tag.data) ('<' :: '/' :: (tag.data ++ ['>']))
    pre.data post.data (l.length + 1) l

/-- The literal `href="` of the link regex. -/
def hrefLit : List Char := ['h', 'r', 'e', 'f', '=', '"']

/-- Attempt the tail `href="([^"]*)"[^>]*>(.*?)<\/a>` of the link regex with
the `href="` literal starting at offset `p` of `l` (the text after `<a`). -/
def linkTryAt (l : List Char) (p : Nat) : Option (List Char × List Char) :=
  let afterPat := l.drop (p + hrefLit.length)
  let href := afterPat.takeWhile (fun c => c ≠ '"')
  match afterPat.drop href.length with
  | '"' :: r2 =>
      match skipAttrs r2 with
      | some r3 =>
          match findCloseCapture ['<', '/', 'a', '>'] r3 with
          | some (cap, rem) =>
              some ('[' :: cap ++ ']' :: '(' :: href ++ [')'], rem)
          | none => none
      | none => none
  | _ => none

/-- Match the link regex body after `<a`: the greedy `[^>]*` prefers the
latest `href="` inside the run of non-`>` characters, backtracking to
earlier occurrences when the tail fails. -/
def linkMatch (l : List Char) : Option (List Char × List Char) :=
  let attrRegion := l.takeWhile (fun c => c ≠ '>')
  let cands := (List.range (attrRegion.length + 1)).filter
    (fun p => hrefLit.isPrefixOf (l.drop p))
  cands.reverse.findSome? (linkTryAt l)

/-- One global pass of `replace(/<a[^>]*href="([^"]*)"[^>]*>(.*?)<\/a>/g, '[$2]($1)')`. -/
def replaceLinksAux : Nat → List Char → List Char
  | 0, l => l
  | _ + 1, [] => []
  | fuel + 1, c :: rest =>
      if ['<', 'a'].isPrefixOf (c :: rest) then
        match linkMatch ((c :: rest).drop 2) with
        | some (out, rem) => out ++ replaceLinksAux fuel rem
        | none => c :: replaceLinksAux fuel rest
      else c :: replaceLinksAux fuel rest

/-- The link pass at full fuel. -/
def replaceLinks (l : List Char) : List Char :=
  replaceLinksAux (l.length + 1) l

/-- What a finished `\n\s*\n` match emits. -/
def nlPair (matched : Bool) : List Char :=
  if matched then ['\n', '\n'] else ['\n']

/-- One global pass of `replace(/\n\s*\n/g, '\n\n')`.  Inside a whitespace
run opened by `\n` the greedy `\s*` ends at the last `\n` of the run:
`buf` holds the (reversed) whitespace read since that last `\n`, and
`matched` whether a second `\n` was seen at all. -/
def collapseBlankAux : List Char → Option (List Char × Bool) → List Char
  | [], none => []
  | [], some (buf, matched) => nlPair matched ++ buf.reverse
  | c :: rest, none =>
      if c = '\n' then collapseBlankAux rest (some ([], false))
      else c :: collapseBlankAux rest none
  | c :: rest, some (buf, matched) =>
      if c = '\n' then collapseBlankAux rest (some ([], true))
      else if jsIsWs c then collapseBlankAux rest (some (c :: buf, matched))
      else nlPair matched ++ buf.reverse ++ c :: collapseBlankAux rest none

/-- `storageFormatToMarkdown` of `content-cleaner.ts`: the sequential
regex-substitution passes, in source order. -/
def storageFormatToMarkdown (storageFormat : String) : String :=
  if storageFormat = "" then ""
  else
    let m := storageFormat.data
    let m := replaceTagged "h1" "# " "" m
    let m := replaceTagged "h2" "## " "" m
    let m := replaceTagged "h3" "### " "" m
    let m := replaceTagged "h4" "#### " "" m
    let m := replaceTagged "h5" "##### " "" m
    let m := replaceTagged "h6" "###### " "" m
    let m := replaceTagged "p" "" "\n\n" m
    let m := replaceTagged "strong" "**" "**" m
    let m := replaceTagged "b" "**" "**" m
    let m := replaceTagged "em" "*" "*" m
    let m := replaceTagged "i" "*" "*" m
    let m := replaceLinks m
    let m := replaceTagged "ul" "" "\n" m
    let m := replaceTagged "ol" "" "\n" m
    let m := replaceTagged "li" "- " "\n" m
    let m := stripTagsAux [] false m
    let m := collapseBlankAux m none
    String.mk (jsTrim m)

/-! ## Response normalizer: `src/services/confluence-api.ts` -/

/-- `createdBy` / `updatedBy` of a cleaned page. -/
structure UserRef where
  id : Json
  displayName : Json
  email : JsVal

/-- The `links` block of a cleaned page. -/
structure PageLinks where
  webui : Json
  edit : Json
  tinyui : Json

/-- One entry of the cleaned `labels` array. -/
structure PageLabel where
  name : JsVal
  id : JsVal

/-- The normalized page entity (`CleanConfluencePage`).  Fields whose
runtime value is unconstrained by the cleaning code stay `Json`/`JsVal`. -/
structure CleanConfluencePage where
  id : JsVal
  title : JsVal
  spaceKey : String
  version : Json
  content : String
  created : JsVal
  updated : JsVal
  createdBy : UserRef
  updatedBy : UserRef
  links : PageLinks
  parentId : JsVal
  childrenIds : JsVal
  labels : Option (List PageLabel)

/-- `space.split('/').pop()`: the segment after the final `/` (the whole
string when it has no `/`; empty when the string ends in `/`). -/
def splitPopAux (cur : List Char) : List Char → List Char
  | [] => cur.reverse
  | '/' :: rest => splitPopAux [] rest
  | c :: rest => splitPopAux (c :: cur) rest

/-- String wrapper for `splitPopAux`. -/
def jsSplitPop (s : String) : String :=
  String.mk (splitPopAux [] s.data)

/-- The `spaceKey` computation of `cleanPage`:
`page._expandable?.space ? page._expandable.space.split('/').pop() : ''`
(`.split` throws on a truthy non-string). -/
def spaceKeyOf (spaceRef : JsVal) : Except Unit String :=
  if truthy spaceRef then
    match spaceRef with
    | some (.str s) => Except.ok (jsSplitPop s)
    | _ => Except.error ()
  else Except.ok ""

/-- The `parentId` computation of `cleanPage`:
`page.ancestors?.length > 0 ? page.ancestors[page.ancestors.length - 1].id
: undefined`; the guard is false whenever the length does not coerce to a
positive number. -/
def parentIdOf (ancestorsV : JsVal) : Except Unit JsVal :=
  match jsToNumberV (jsChain ancestorsV "length") with
  | some n =>
      if 0 < n then do
        let elem ← jsIndexE ancestorsV (n - 1)
        jsMember elem "id"
      else pure none
  | none => pure none

/-- The `labels` computation of `cleanPage`:
`page.metadata?.labels?.results?.map(label => ({name, id}))`; calling
`.map` on a non-nullish non-array throws. -/
def labelsOf (resultsV : JsVal) : Except Unit (Option (List PageLabel)) :=
  match resultsV with
  | none => pure none
  | some .null => pure none
  | some (.arr xs) => do
      let ls ← xs.mapM (fun x => do
        let n ← jsMember (some x) "name"
        let i ← jsMember (some x) "id"
        pure ({ name := n, id := i } : PageLabel))
      pure (some ls)
  | some _ => Except.error ()

/-- `cleanPage` of `ConfluenceApiService`, with JavaScript property-access
semantics made explicit; `Except.error ()` models a thrown `TypeError`. -/
def cleanPage (page : Json) : Except Unit CleanConfluencePage := do
  let pv : JsVal := some page
  -- const body = page.body?.storage?.value || '';
  let bodyV := jsChain (jsChain (← jsMember pv "body") "storage") "value"
  let body := jsOr bodyV (.str "")
  -- const cleanContent = this.extractTextContent(body);  (.replace throws on a non-string)
  let bodyStr ← match body with
    | .str s => Except.ok s
    | _ => Except.error ()
  let cleanContent := extractTextContent bodyStr
  let idV ← jsMember pv "id"
  let titleV ← jsMember pv "title"
  -- spaceKey: page._expandable?.space ? page._expandable.space.split('/').pop() : ''
  let expandableV ← jsMember pv "_expandable"
  let spaceKey ← spaceKeyOf (jsChain expandableV "space")
  -- version: page.version?.number || 1
  let versionV ← jsMember pv "version"
  let version := jsOr (jsChain versionV "number") (.num 1)
  let createdV ← jsMember pv "created"
  let updatedV ← jsMember pv "updated"
  let historyV ← jsMember pv "history"
  let createdByV := jsChain historyV "createdBy"
  let createdBy : UserRef :=
    { id := jsOr (jsChain createdByV "accountId") (.str "")
      displayName := jsOr (jsChain createdByV "displayName") (.str "")
      email := jsChain createdByV "email" }
  let lastUpdatedByV := jsChain (jsChain historyV "lastUpdated") "by"
  let updatedBy : UserRef :=
    { id := jsOr (jsChain lastUpdatedByV "accountId") (.str "")
      displayName := jsOr (jsChain lastUpdatedByV "displayName") (.str "")
      email := jsChain lastUpdatedByV "email" }
  let linksV ← jsMember pv "_links"
  let links : PageLinks :=
    { webui := jsOr (jsChain linksV "webui") (.str "")
      edit := jsOr (jsChain linksV "editui") (.str "")
      tinyui := jsOr (jsChain linksV "tinyui") (.str "") }
  -- parentId: page.ancestors?.length > 0 ? page.ancestors[page.ancestors.length - 1].id : undefined
  let ancestorsV ← jsMember pv "ancestors"
  let parentId ← parentIdOf ancestorsV
  -- labels: page.metadata?.labels?.results?.map(label => ({name, id}))
  let metadataV ← jsMember pv "metadata"
  let labels ← labelsOf (jsChain (jsChain metadataV "labels") "results")
  pure
    { id := idV, title := titleV, spaceKey := spaceKey, version := version
      content := cleanContent, created := createdV, updated := updatedV
      createdBy := createdBy, updatedBy := updatedBy, links := links
      parentId := parentId, childrenIds := none, labels := labels }

/-- A request issued against the service (url is relative to the base url,
exactly as passed to `handleFetchError`). -/
structure HttpRequest where
  method : String
  url : String
  body : Option Json

/-- A service response: status, status text, and parsed JSON body
(`none` when the body is not parseable JSON). -/
structure HttpResponse where
  status : Nat
  statusText : String
  jsonBody : Option Json

/-- `Response.ok`: status in the inclusive range 200–299. -/
def HttpResponse.ok (r : HttpResponse) : Bool :=
  200 ≤ r.status && r.status ≤ 299

/-- The injected HTTP behaviour: what the service answers to each request. -/
abbrev HttpOracle := HttpRequest → HttpResponse

/-- The failures an operation can raise.  `contentNotFound` and `api` are the
two `Error` shapes thrown by `handleFetchError`; `parseFailure` is a JSON
parse rejection on a success response; `jsThrow` a runtime `TypeError`. -/
inductive ApiError where
  | contentNotFound (resourceId : String)
  | api (message : String) (status : Nat)
  | unknownError
  | parseFailure
  | jsThrow
  deriving DecidableEq

/-- The exact `Error` message text the source builds for each failure. -/
def renderApiError : ApiError → String
  | .contentNotFound rid => "Content not found: " ++ rid
  | .api m s => "Confluence API Error: " ++ m ++ " (Status: " ++ toString s ++ ")"
  | .unknownError => "Unknown error occurred"
  | .parseFailure => "SyntaxError: unexpected response body"
  | .jsThrow => "TypeError"

/-- The literal `/content/` searched for in the request url. -/
def contentPat : List Char := "/content/".data

/-- `url.includes('/content/')`. -/
def hasContentSub : List Char → Bool
  | [] => false
  | c :: rest => contentPat.isPrefixOf (c :: rest) || hasContentSub rest

/-- The capture of `url.match(/\/content\/([^/]+)/)`: at the first position
where `/content/` occurs and is followed by at least one non-`/` character,
capture the run of non-`/` characters; otherwise keep scanning. -/
def contentIdCapture : List Char → Option (List Char)
  | [] => none
  | c :: rest =>
      if contentPat.isPrefixOf (c :: rest) then
        let cap := ((c :: rest).drop contentPat.length).takeWhile (fun ch => ch ≠ '/')
        if cap.isEmpty then contentIdCapture rest else some cap
      else contentIdCapture rest

/-- `handleFetchError` of `ConfluenceApiService`: classify a non-ok response
(404 on a content url → `contentNotFound` with the regex capture; otherwise
an `api` error carrying `errorData?.message || errorData?.errorMessage ||
response.statusText` and the status). -/
def handleFetchError (response : HttpResponse) (url : Option String) : ApiError :=
  if !response.ok then
    let errorData := response.jsonBody.getD (.obj [])
    let contentCapture :=
      if response.status = 404 &&
          (match url with
           | some u => hasContentSub u.data
           | none => false) then
        match url with
        | some u => contentIdCapture u.data
        | none => none
      else none
    match contentCapture with
    | some cap => .contentNotFound (String.mk cap)
    | none =>
        let m1 := jsChain (some errorData) "message"
        let m2 := jsChain (some errorData) "errorMessage"
        let message := jsOr (jsOrV m1 m2) (.str response.statusText)
        .api (jsonToDisplay message) response.status
  else .unknownError

/-- `fetchJson` of `ConfluenceApiService`: issue the request, raise the
classified error on a non-ok status, otherwise return the parsed body. -/
def fetchJson (oracle : HttpOracle) (req : HttpRequest) : Except ApiError Json :=
  let response := oracle req
  if !response.ok then .error (handleFetchError response (some req.url))
  else
    match response.jsonBody with
    | some j => .ok j
    | none => .error .parseFailure

/-- The `URLSearchParams` encoding of the `getPage` expand set (commas are
percent-encoded), as asserted verbatim by the repository's tests. -/
def pageExpandParams : String :=
  "expand=body.storage%2Cversion%2Cancestors%2Chistory%2Cmetadata.labels%2Cspace%2Cchildren.page"

/-- The GET request `getPage` issues. -/
def getPageRequest (pageId : String) : HttpRequest :=
  { method := "GET"
    url := "/rest/api/content/" ++ pageId ++ "?" ++ pageExpandParams
    body := none }

/-- `getPage`: one GET, then `cleanPage` on the body.  Returns the list of
requests issued, in issue order, together with the outcome. -/
def getPage (oracle : HttpOracle) (pageId : String) :
    List HttpRequest × Except ApiError CleanConfluencePage :=
  let req := getPageRequest pageId
  ([req],
    match fetchJson oracle req with
    | .error e => .error e
    | .ok page =>
        match cleanPage page with
        | .ok c => .ok c
        | .error _ => .error .jsThrow)

/-- The POST payload of `createPage`; `if (parentId)` adds the ancestor
entry only for a truthy (non-empty) parent id. -/
def createPagePayload (spaceKey title content : String) (parentId : Option String) : Json :=
  .obj ([("type", .str "page"), ("title", .str title),
         ("space", .obj [("key", .str spaceKey)]),
         ("body", .obj [("storage", .obj [("value", .str content),
                                          ("representation", .str "storage")])])] ++
    (match parentId with
     | some pid => if pid = "" then [] else [("ancestors", .arr [.obj [("id", .str pid)]])]
     | none => []))

/-- The POST request `createPage` issues. -/
def createPageRequest (spaceKey title content : String) (parentId : Option String) : HttpRequest :=
  { method := "POST"
    url := "/rest/api/content"
    body := some (createPagePayload spaceKey title content parentId) }

/-- `createPage`: POST the creation payload, then re-fetch the created page
by the `id` of the creation response (`this.getPage(page.id)`). -/
def createPage (oracle : HttpOracle) (spaceKey title content : String)
    (parentId : Option String) :
    List HttpRequest × Except ApiError CleanConfluencePage :=
  let req := createPageRequest spaceKey title content parentId
  match fetchJson oracle req with
  | .error e => ([req], .error e)
  | .ok page =>
      match jsMember (some page) "id" with
      | .error _ => ([req], .error .jsThrow)
      | .ok idV =>
          let (tr, res) := getPage oracle (jsValDisplay idV)
          (req :: tr, res)

/-- The PUT payload of `updatePage`: `version.number` is set to
`newVersion`, which the caller instantiates with `version + 1`. -/
def updatePagePayload (title content spaceKey : String) (newVersion : Int) : Json :=
  .obj [("type", .str "page"), ("title", .str title),
        ("space", .obj [("key", .str spaceKey)]),
        ("body", .obj [("storage", .obj [("value", .str content),
                                         ("representation", .str "storage")])]),
        ("version", .obj [("number", .num newVersion)])]

/-- The PUT request `updatePage` issues. -/
def putPageRequest (pageId title content spaceKey : String) (newVersion : Int) : HttpRequest :=
  { method := "PUT"
    url := "/rest/api/content/" ++ pageId
    body := some (updatePagePayload title content spaceKey newVersion) }

/-- `updatePage`: GET the current page (for its space key), PUT the update
payload with `version + 1` where `version` is the caller's argument, then
GET the page again. -/
def updatePage (oracle : HttpOracle) (pageId title content : String) (version : Int) :
    List HttpRequest × Except ApiError CleanConfluencePage :=
  let (tr1, r1) := getPage oracle pageId
  match r1 with
  | .error e => (tr1, .error e)
  | .ok currentPage =>
      let putReq := putPageRequest pageId title content currentPage.spaceKey (version + 1)
      match fetchJson oracle putReq with
      | .error e => (tr1 ++ [putReq], .error e)
      | .ok _ =>
          let (tr3, r3) := getPage oracle pageId
          (tr1 ++ putReq :: tr3, r3)

/-- The `version.number` field of a request's JSON body, if any. -/
def requestVersionNumber (r : HttpRequest) : JsVal :=
  match r.body with
  | none => none
  | some b => jsChain (jsChain (some b) "version") "number"

/-- The spec's error taxonomy. -/
inductive ErrorClass where
  | notFound
  | validation
  | serverError
  | network
  | unknownClass
  deriving DecidableEq

/-- Modelled from the spec: the code throws untyped `Error` values and does
not reify the taxonomy `NotFound / Validation / ServerError / Network /
Unknown`; following the spec's error-mapping rule, a content 404 is
`NotFound` and an error carrying a service message classifies by its
status code (4xx validation, otherwise server error). -/
def specClassify : ApiError → ErrorClass
  | .contentNotFound _ => .notFound
  | .api _ s => if 400 ≤ s ∧ s < 500 then .validation else .serverError
  | .unknownError => .unknownClass
  | .parseFailure => .unknownClass
  | .jsThrow => .unknownClass

/-! ## Supporting lemmas -/

theorem lastIndexOfSpace_some {cs : List Char} {k i : Nat}
    (h : lastIndexOfSpace cs k = some i) :
    i ≤ k ∧ cs.get? i = some ' ' ∧ ∀ j, i < j → j ≤ k → cs.get? j ≠ some ' ' := by
  induction k with
  | zero =>
      rw [lastIndexOfSpace] at h
      by_cases h0 : cs.get? 0 = some ' '
      · rw [if_pos h0] at h
        cases h
        exact ⟨Nat.le_refl _, h0,
          fun j hj hj0 => absurd (Nat.lt_of_lt_of_le hj hj0) (Nat.lt_irrefl _)⟩
      · rw [if_neg h0] at h
        cases h
  | succ k ih =>
      rw [lastIndexOfSpace] at h
      by_cases hk : cs.get? (k + 1) = some ' '
      · rw [if_pos hk] at h
        cases h
        refine ⟨Nat.le_refl _, hk, fun j hj hjk => ?_⟩
        exact absurd (Nat.lt_of_lt_of_le hj hjk) (Nat.lt_irrefl _)
      · rw [if_neg hk] at h
        obtain ⟨h1, h2, h3⟩ := ih h
        refine ⟨Nat.le_succ_of_le h1, h2, fun j hj hjk => ?_⟩
        rcases Nat.lt_or_ge j (k + 1) with hlt | hge
        · exact h3 j hj (Nat.lt_succ_iff.mp hlt)
        · have hj1 : j = k + 1 := Nat.le_antisymm hjk hge
          rw [hj1]
          exact hk

theorem lastIndexOfSpace_none {cs : List Char} {k : Nat}
    (h : lastIndexOfSpace cs k = none) :
    ∀ i, i ≤ k → cs.get? i ≠ some ' ' := by
  induction k with
  | zero =>
      intro i hi
      have hi0 : i = 0 := Nat.le_zero.mp hi
      rw [lastIndexOfSpace] at h
      by_cases h0 : cs.get? 0 = some ' '
      · rw [if_pos h0] at h; cases h
      · rw [hi0]; exact h0
  | succ k ih =>
      intro i hi
      rw [lastIndexOfSpace] at h
      by_cases hk : cs.get? (k + 1) = some ' '
      · rw [if_pos hk] at h; cases h
      · rw [if_neg hk] at h
        rcases Nat.lt_or_ge i (k + 1) with hlt | hge
        · exact ih h i (Nat.lt_succ_iff.mp hlt)
        · have hik : i = k + 1 := Nat.le_antisymm hi hge
          rw [hik]; exact hk

theorem lastIndexOfSpace_isSome {cs : List Char} {k i : Nat}
    (hik : i ≤ k) (hsp : cs.get? i = some ' ') :
    (lastIndexOfSpace cs k).isSome := by
  induction k with
  | zero =>
      have h0 : i = 0 := Nat.le_zero.mp hik
      rw [lastIndexOfSpace, if_pos (h0 ▸ hsp)]
      rfl
  | succ k ih =>
      rw [lastIndexOfSpace]
      by_cases hk : cs.get? (k + 1) = some ' '
      · rw [if_pos hk]; rfl
      · have hne : i ≠ k + 1 := fun h => hk (h ▸ hsp)
        have hik' : i ≤ k := Nat.lt_succ_iff.mp (Nat.lt_of_le_of_ne hik hne)
        rw [if_neg hk]
        exact ih hik'

theorem hasContentSub_std (tail : List Char) :
    hasContentSub ("/rest/api/content/".data ++ tail) = true := by
  have hdata : "/rest/api/content/".data =
      ['/','r','e','s','t','/','a','p','i','/','c','o','n','t','e','n','t','/'] := rfl
  rw [hdata]
  simp [hasContentSub, List.isPrefixOf, contentPat]

theorem contentIdCapture_std (tail : List Char) (hne : tail ≠ [])
    (hnos : ∀ c ∈ tail, c ≠ '/') :
    contentIdCapture ("/rest/api/content/".data ++ tail) = some tail := by
  have hdata : "/rest/api/content/".data =
      ['/','r','e','s','t','/','a','p','i','/','c','o','n','t','e','n','t','/'] := rfl
  rcases tail with _ | ⟨c, t⟩
  · cases hne rfl
  · have hc : (c = '/') = False := by simpa using hnos c (List.mem_cons_self c t)
    have htake : t.takeWhile (fun ch => !decide (ch = '/')) = t := by
      rw [List.takeWhile_eq_self_iff]
      intro a ha
      simpa using hnos a (List.mem_cons_of_mem c ha)
    rw [hdata]
    simp [contentIdCapture, List.isPrefixOf, contentPat, hc, htake]

theorem spaceKeyOf_str (sp : String) :
    spaceKeyOf (some (.str sp)) = .ok (jsSplitPop sp) := by
  by_cases h : sp = ""
  · subst h; rfl
  · have ht : truthy (some (.str sp)) = true := by simp [truthy]; exact h
    rw [spaceKeyOf, ht]
    simp

theorem parentIdOf_mapped (ids : List String) :
    parentIdOf (some (.arr (ids.map (fun i => .obj [("id", .str i)])))) =
      .ok (ids.getLast?.map Json.str) := by
  rcases List.eq_nil_or_concat ids with rfl | ⟨as, a, rfl⟩
  · rfl
  · rw [List.concat_eq_append]
    have hmap : (as ++ [a]).map (fun i => Json.obj [("id", .str i)]) =
        (as.map (fun i => Json.obj [("id", .str i)])) ++ [Json.obj [("id", .str a)]] := by
      simp
    rw [hmap, List.getLast?_concat]
    set xs := as.map (fun i => Json.obj [("id", .str i)]) with hxs
    set y := Json.obj [("id", Json.str a)] with hy
    have hlen : (xs ++ [y]).length = xs.length + 1 := by simp
    rw [parentIdOf]
    simp only [jsChain, jsToNumberV, jsToNumber, hlen, if_true]
    rw [if_pos (by positivity : (0 : Int) < ((xs.length + 1 : Nat) : Int))]
    have hidx : ((xs.length + 1 : Nat) : Int) - 1 = (xs.length : Int) := by push_cast; ring
    simp only [jsIndexE, hidx]
    rw [if_pos (Int.natCast_nonneg _)]
    have htonat : ((xs.length : Int)).toNat = xs.length := Int.toNat_natCast _
    rw [htonat]
    have hget : (xs ++ [y]).get? xs.length = some y := by
      rw [List.get?_eq_getElem?]
      exact List.getElem?_concat_length xs y
    rw [hget]
    rfl

/-- A well-typed raw page payload with a given expandable space reference
and ancestor chain (ancestors from root to immediate parent). -/
def rawPageFor (sp : String) (ancestorIds : List String) : Json :=
  .obj [("id", .str "p"), ("title", .str "t"),
        ("_expandable", .obj [("space", .str sp)]),
        ("ancestors", .arr (ancestorIds.map (fun i => .obj [("id", .str i)])))]

theorem cleanPage_rawPageFor (sp : String) (ids : List String) :
    cleanPage (rawPageFor sp ids) =
      (spaceKeyOf (some (.str sp))).bind (fun sk =>
        (parentIdOf (some (.arr (ids.map (fun i => .obj [("id", .str i)]))))).bind (fun pid =>
          Except.ok
            { id := some (.str "p"), title := some (.str "t"),
              spaceKey := sk, version := .num 1, content := "",
              created := none, updated := none,
              createdBy := { id := .str "", displayName := .str "", email := none },
              updatedBy := { id := .str "", displayName := .str "", email := none },
              links := { webui := .str "", edit := .str "", tinyui := .str "" },
              parentId := pid, childrenIds := none, labels := none })) := rfl

/-! ## Concrete service behaviours used by the claim theorems -/

/-- A raw page whose current version is 5, in space TEST. -/
def pageJsonV5 : Json :=
  .obj [("id", .str "page-123"), ("title", .str "Test Page"),
        ("_expandable", .obj [("space", .str "/rest/api/space/TEST")]),
        ("version", .obj [("number", .num 5)])]

/-- A service that answers every read with `pageJsonV5` and accepts writes. -/
def oracleC1 : HttpOracle := fun r =>
  if r.method = "PUT" then { status := 200, statusText := "OK", jsonBody := some (.obj []) }
  else { status := 200, statusText := "OK", jsonBody := some pageJsonV5 }

/-- A service that answers everything with 404. -/
def oracle404 : HttpOracle := fun _ =>
  { status := 404, statusText := "Not Found",
    jsonBody := some (.obj [("message", .str "Not found")]) }

/-- A service that rejects everything with 400 `Space not found`. -/
def oracle400 : HttpOracle := fun _ =>
  { status := 400, statusText := "Bad Request",
    jsonBody := some (.obj [("message", .str "Space not found")]) }

/-! ## Claim theorems -/

/-- C1 (counterexample): calling `updatePage` with version argument 7 while
the page read just before the write reports version 5 makes the PUT body
carry `version.number = 8` (argument + 1), not 6 (read version + 1): the
claimed compare-and-increment on the read value does not hold. -/
theorem updatePage_version_read_plus_one_counterexample :
    (((updatePage oracleC1 "page-123" "T2" "C2" 7).1.get? 1).map requestVersionNumber)
      = some (some (.num 8)) ∧
    (match (getPage oracleC1 "page-123").2 with
      | .ok p => p.version
      | .error _ => .null) = .num 5 ∧
    Json.num 8 ≠ Json.num (5 + 1) := by
  refine ⟨rfl, rfl, fun h => ?_⟩
  injection h with h
  omega

/-- C1 (amended): the second request issued by every `updatePage` call is
the PUT, and its body always carries `version.number = version + 1` for the
caller-supplied `version` argument, whatever the read returned; the read
preceding the write only supplies the space key. -/
theorem updatePage_put_carries_caller_version_succ
    (o : HttpOracle) (p t c : String) (v : Int) (r : HttpRequest)
    (h : (updatePage o p t c v).1.get? 1 = some r) :
    r.method = "PUT" ∧ requestVersionNumber r = some (.num (v + 1)) := by
  rw [updatePage] at h
  cases hg : (getPage o p).2 with
  | error e =>
      rw [show getPage o p = ([getPageRequest p], (getPage o p).2) from rfl, hg] at h
      dsimp only at h
      simp at h
  | ok cur =>
      rw [show getPage o p = ([getPageRequest p], (getPage o p).2) from rfl, hg] at h
      dsimp only at h
      cases hf : fetchJson o (putPageRequest p t c cur.spaceKey (v + 1)) with
      | error e =>
          rw [hf] at h
          simp at h
          rw [← h]
          exact ⟨rfl, rfl⟩
      | ok j =>
          rw [hf] at h
          simp at h
          rw [← h]
          exact ⟨rfl, rfl⟩

/-- C1 (witness): the amended claim at a concrete service and call. -/
theorem updatePage_put_carries_caller_version_succ_witness :
    (putPageRequest "page-123" "T2" "C2" "TEST" (7 + 1)).method = "PUT" ∧
    requestVersionNumber (putPageRequest "page-123" "T2" "C2" "TEST" (7 + 1))
      = some (.num (7 + 1)) :=
  updatePage_put_carries_caller_version_succ oracleC1 "page-123" "T2" "C2" 7 _ rfl

/-- C2 (counterexample): a 404 on `getPage "abc-123"` carries resourceId
`abc-123?expand=...` — the id segment with the whole query string appended —
not exactly `abc-123` as claimed. -/
theorem notFound_id_exact_counterexample :
    (getPage oracle404 "abc-123").2
      = .error (.contentNotFound ("abc-123?" ++ pageExpandParams)) ∧
    ("abc-123?" ++ pageExpandParams) ≠ "abc-123" := by
  exact ⟨rfl, by decide⟩

/-- C2 (amended): a 404 answer to `getPage pageId` (for any page id without
`/`) fails with `contentNotFound` carrying everything after `/content/` up
to the next `/`, which is the id segment with the `?expand=...` query string
appended. -/
theorem getPage_404_notFound_id_with_query (o : HttpOracle) (pid : String)
    (h404 : (o (getPageRequest pid)).status = 404)
    (hnos : ∀ c ∈ pid.data, c ≠ '/') :
    (getPage o pid).2 = .error (.contentNotFound (pid ++ "?" ++ pageExpandParams)) := by
  have hok : (o (getPageRequest pid)).ok = false := by
    rw [HttpResponse.ok, h404]
    decide
  have hurl : (getPageRequest pid).url.data =
      "/rest/api/content/".data ++ (pid.data ++ ("?" ++ pageExpandParams).data) := by
    show ("/rest/api/content/" ++ pid ++ "?" ++ pageExpandParams).data = _
    simp [String.data_append]
  have htailne : pid.data ++ ("?" ++ pageExpandParams).data ≠ [] := by
    simp [String.data_append]
  have hq : ∀ x ∈ ("?" ++ pageExpandParams).data, x ≠ '/' := by decide
  have htailno : ∀ c ∈ pid.data ++ ("?" ++ pageExpandParams).data, c ≠ '/' := by
    intro c hc
    rcases List.mem_append.mp hc with h | h
    · exact hnos c h
    · exact hq c h
  have h1 : hasContentSub (getPageRequest pid).url.data = true := by
    rw [hurl]; exact hasContentSub_std _
  have h2 : contentIdCapture (getPageRequest pid).url.data
      = some (pid.data ++ ("?" ++ pageExpandParams).data) := by
    rw [hurl]; exact contentIdCapture_std _ htailne htailno
  have hmk : String.mk (pid.data ++ '?' :: pageExpandParams.data)
      = pid ++ "?" ++ pageExpandParams := by
    show _ = String.mk (pid ++ "?" ++ pageExpandParams).data
    simp [String.data_append]
  show (match fetchJson o (getPageRequest pid) with
    | .error e => (Except.error e : Except ApiError CleanConfluencePage)
    | .ok page =>
        match cleanPage page with
        | .ok c => .ok c
        | .error _ => .error .jsThrow) = _
  rw [fetchJson]
  simp only [hok, Bool.not_false, if_true]
  rw [handleFetchError]
  simp only [hok, Bool.not_false, if_true, h404, h1]
  simp only [h2]
  simp [hmk]

/-- C2 (witness): the amended claim at a concrete 404 service. -/
theorem getPage_404_notFound_id_with_query_witness :
    (oracle404 (getPageRequest "abc-123")).status = 404 ∧
    (getPage oracle404 "abc-123").2
      = .error (.contentNotFound ("abc-123" ++ "?" ++ pageExpandParams)) :=
  ⟨rfl, getPage_404_notFound_id_with_query oracle404 "abc-123" rfl (by decide)⟩

/-- C3 (counterexample): truncation is not idempotent: with bound 3,
`truncate "aaa bb" = "aaa..."` (length 6 > 3), and truncating the result
again gives `"aaa"`, not `"aaa..."`. -/
theorem truncate_idempotent_counterexample :
    truncateContent "aaa bb" 3 = "aaa..." ∧
    truncateContent (truncateContent "aaa bb" 3) 3 = "aaa" ∧
    ("aaa" : String) ≠ "aaa..." :=
  ⟨rfl, rfl, by decide⟩

/-- C3 (amended): `truncate` is the identity on strings of length at most
the bound, and consequently idempotent whenever its first result fits the
bound (which fails exactly when the chosen cut leaves `cut ++ "..."` longer
than the bound, as in the counterexample). -/
theorem truncate_noop_short_and_idempotent_within_bound (s : String) (n : Nat) :
    (s.length ≤ n → truncateContent s n = s) ∧
    ((truncateContent s n).length ≤ n →
      truncateContent (truncateContent s n) n = truncateContent s n) := by
  constructor
  · intro h
    rw [truncateContent, if_pos h]
  · intro h
    conv_lhs => rw [truncateContent]
    rw [if_pos h]

/-- C3 (witness): the amended claim at a bound that fits. -/
theorem truncate_noop_short_and_idempotent_within_bound_witness :
    truncateContent "aaa bb" 10 = "aaa bb" ∧
    truncateContent (truncateContent "aaa bb" 10) 10 = truncateContent "aaa bb" 10 :=
  ⟨(truncate_noop_short_and_idempotent_within_bound "aaa bb" 10).1 (by decide),
   (truncate_noop_short_and_idempotent_within_bound "aaa bb" 10).2 (by decide)⟩

/-- C4 (counterexample): `"aa\nbbbb"` truncated at 4 contains a whitespace
boundary (the newline at index 2 ≤ 4), yet the code hard-cuts to `"aa\nb"`
with no ellipsis: only the space character `' '` counts as a boundary, not
whitespace in general. -/
theorem truncate_whitespace_boundary_counterexample :
    "aa\nbbbb".data.get? 2 = some '\n' ∧ jsIsWs '\n' = true ∧ (2 : Nat) ≤ 4 ∧
    truncateContent "aa\nbbbb" 4 = "aa\nb" ∧
    ("aa\nb" : String) ≠ "aa" ++ "..." :=
  ⟨rfl, rfl, by decide, rfl, by decide⟩

/-- C4 (amended): with *space character* in place of *whitespace boundary*:
a short string is returned unchanged; an over-long string with a space at
or before the bound is cut at the last such space with `"..."` appended;
an over-long string with no space at or before the bound is hard-cut at
the bound with no ellipsis. -/
theorem truncate_space_boundary_characterization (s : String) (n : Nat) :
    (s.length ≤ n → truncateContent s n = s) ∧
    (n < s.length →
      ((∃ i, i ≤ n ∧ s.data.get? i = some ' ') →
        ∃ i, i ≤ n ∧ s.data.get? i = some ' ' ∧
          (∀ j, i < j → j ≤ n → s.data.get? j ≠ some ' ') ∧
          truncateContent s n = String.mk (s.data.take i) ++ "...") ∧
      ((∀ i, i ≤ n → s.data.get? i ≠ some ' ') →
        truncateContent s n = String.mk (s.data.take n))) := by
  constructor
  · intro h
    rw [truncateContent, if_pos h]
  · intro hlen
    have hnot : ¬ s.length ≤ n := Nat.not_le.mpr hlen
    constructor
    · rintro ⟨i, hin, hsp⟩
      have hs := lastIndexOfSpace_isSome hin hsp
      obtain ⟨bp, hbp⟩ := Option.isSome_iff_exists.mp hs
      obtain ⟨h1, h2, h3⟩ := lastIndexOfSpace_some hbp
      refine ⟨bp, h1, h2, h3, ?_⟩
      rw [truncateContent, if_neg hnot, hbp]
    · intro hno
      rw [truncateContent, if_neg hnot]
      cases hcase : lastIndexOfSpace s.data n with
      | none => rfl
      | some bp =>
          obtain ⟨h1, h2, _⟩ := lastIndexOfSpace_some hcase
          exact absurd h2 (hno bp h1)

/-- C4 (witness): the amended claim at concrete inputs, one per branch. -/
theorem truncate_space_boundary_characterization_witness :
    truncateContent "ab" 5 = "ab" ∧
    (∃ i, i ≤ 3 ∧ "aaa bb".data.get? i = some ' ' ∧
      (∀ j, i < j → j ≤ 3 → "aaa bb".data.get? j ≠ some ' ') ∧
      truncateContent "aaa bb" 3 = String.mk ("aaa bb".data.take i) ++ "...") ∧
    truncateContent "aaaa" 2 = "aa" :=
  ⟨(truncate_space_boundary_characterization "ab" 5).1 (by decide),
   ((truncate_space_boundary_characterization "aaa bb" 3).2 (by decide)).1
     ⟨3, by decide, rfl⟩,
   ((truncate_space_boundary_characterization "aaaa" 2).2 (by decide)).2 (by decide)⟩

/-- C5 (counterexample): the markdown conversion of
`<h1>Title</h1><p>Hello <strong>world</strong></p>` is not
`"# Title\nHello **world**"`, and in fact contains no newline at all: the
heading pass inserts no line break, so the paragraph does not follow on a
separate line. -/
theorem markdown_example_counterexample :
    storageFormatToMarkdown "<h1>Title</h1><p>Hello <strong>world</strong></p>"
      ≠ "# Title\nHello **world**" ∧
    ¬ ('\n' ∈ (storageFormatToMarkdown
        "<h1>Title</h1><p>Hello <strong>world</strong></p>").data) :=
  ⟨by decide, by decide⟩

/-- C5 (amended): the conversion yields `"# TitleHello **world**"`: the
heading is rendered as `# Title` and the strong tag as `**world**`, but the
heading replacement appends no newline, so the paragraph body is
concatenated directly after the heading (its own trailing blank line is
trimmed). -/
theorem markdown_example_actual_output :
    storageFormatToMarkdown "<h1>Title</h1><p>Hello <strong>world</strong></p>"
      = "# TitleHello **world**" := rfl

/-- C6: a 400 creation response with body `{"message":"Space not found"}`
makes `createPage` fail with an error carrying exactly the message
`Space not found` and status 400, which the spec taxonomy classifies as a
Validation error; the thrown message text is reproduced verbatim. -/
theorem createPage_400_validation_message_status :
    (createPage oracle400 "TEST" "New Page" "<p>content</p>" none).2
      = .error (.api "Space not found" 400) ∧
    specClassify (.api "Space not found" 400) = .validation ∧
    renderApiError (.api "Space not found" 400)
      = "Confluence API Error: Space not found (Status: 400)" :=
  ⟨rfl, rfl, rfl⟩

/-- C7: for every valid raw page payload, the cleaned `spaceKey` is the last
path segment of the expandable space reference, and `parentId` is the id of
the last element of the ancestor chain, absent when the chain is empty. -/
theorem cleanPage_spaceKey_last_segment_parentId_last_ancestor
    (sp : String) (ancestorIds : List String) :
    cleanPage (rawPageFor sp ancestorIds) = .ok
      { id := some (.str "p"), title := some (.str "t"),
        spaceKey := jsSplitPop sp, version := .num 1, content := "",
        created := none, updated := none,
        createdBy := { id := .str "", displayName := .str "", email := none },
        updatedBy := { id := .str "", displayName := .str "", email := none },
        links := { webui := .str "", edit := .str "", tinyui := .str "" },
        parentId := ancestorIds.getLast?.map Json.str,
        childrenIds := none, labels := none } := by
  rw [cleanPage_rawPageFor, spaceKeyOf_str, parentIdOf_mapped]
  rfl

/-- C8: `createPage` and `updatePage` issue their calls strictly in
sequence: `createPage`'s trace is the POST alone when it fails, and exactly
the POST followed by a GET of the id returned by the creation response when
it succeeds; `updatePage`'s trace starts with the read, position 1 (if
reached) is the PUT to the page, position 2 (if reached) is the re-read and
occurs only after a PUT. -/
theorem write_then_read_sequential (o : HttpOracle) (sk t c : String) (pid : Option String)
    (p t2 c2 : String) (v : Int) :
    (((o (createPageRequest sk t c pid)).ok = false →
        (createPage o sk t c pid).1 = [createPageRequest sk t c pid]) ∧
     (∀ j idV, (o (createPageRequest sk t c pid)).ok = true →
        (o (createPageRequest sk t c pid)).jsonBody = some j →
        jsMember (some j) "id" = .ok idV →
        (createPage o sk t c pid).1 =
          [createPageRequest sk t c pid, getPageRequest (jsValDisplay idV)])) ∧
    ((updatePage o p t2 c2 v).1.get? 0 = some (getPageRequest p) ∧
     (∀ r, (updatePage o p t2 c2 v).1.get? 1 = some r →
        r.method = "PUT" ∧ r.url = "/rest/api/content/" ++ p) ∧
     (∀ r, (updatePage o p t2 c2 v).1.get? 2 = some r →
        r = getPageRequest p ∧
        ∃ rput, (updatePage o p t2 c2 v).1.get? 1 = some rput ∧ rput.method = "PUT")) := by
  constructor
  · constructor
    · intro hok
      rw [createPage]
      simp only [fetchJson, hok]
      rfl
    · intro j idV hok hbody hid
      rw [createPage]
      simp [fetchJson, hok, hbody]
      rw [hid]
      rfl
  · refine ⟨?_, ?_, ?_⟩
    · rw [updatePage]
      cases hg : (getPage o p).2 with
      | error e =>
          rw [show getPage o p = ([getPageRequest p], (getPage o p).2) from rfl, hg]
          rfl
      | ok cur =>
          rw [show getPage o p = ([getPageRequest p], (getPage o p).2) from rfl, hg]
          dsimp only
          cases hf : fetchJson o (putPageRequest p t2 c2 cur.spaceKey (v + 1)) with
          | error e => rfl
          | ok j => rfl
    · intro r h
      rw [updatePage] at h
      cases hg : (getPage o p).2 with
      | error e =>
          rw [show getPage o p = ([getPageRequest p], (getPage o p).2) from rfl, hg] at h
          dsimp only at h
          simp at h
      | ok cur =>
          rw [show getPage o p = ([getPageRequest p], (getPage o p).2) from rfl, hg] at h
          dsimp only at h
          cases hf : fetchJson o (putPageRequest p t2 c2 cur.spaceKey (v + 1)) with
          | error e =>
              rw [hf] at h
              simp at h
              rw [← h]
              exact ⟨rfl, rfl⟩
          | ok j =>
              rw [hf] at h
              simp at h
              rw [← h]
              exact ⟨rfl, rfl⟩
    · intro r h
      rw [updatePage] at h
      cases hg : (getPage o p).2 with
      | error e =>
          rw [show getPage o p = ([getPageRequest p], (getPage o p).2) from rfl, hg] at h
          dsimp only at h
          simp at h
      | ok cur =>
          rw [show getPage o p = ([getPageRequest p], (getPage o p).2) from rfl, hg] at h
          dsimp only at h
          cases hf : fetchJson o (putPageRequest p t2 c2 cur.spaceKey (v + 1)) with
          | error e =>
              rw [hf] at h
              simp at h
          | ok j =>
              rw [hf] at h
              simp at h
              refine ⟨h.symm, putPageRequest p t2 c2 cur.spaceKey (v + 1), ?_, rfl⟩
              rw [updatePage]
              rw [show getPage o p = ([getPageRequest p], (getPage o p).2) from rfl, hg]
              dsimp only
              rw [hf]
              rfl

/-- C8 (witness): the sequencing claim at a concrete service. -/
theorem write_then_read_sequential_witness :
    (createPage oracleC1 "TEST" "T" "C" none).1
      = [createPageRequest "TEST" "T" "C" none, getPageRequest "page-123"] ∧
    (updatePage oracleC1 "p1" "T2" "C2" 5).1.get? 0 = some (getPageRequest "p1") :=
  ⟨(write_then_read_sequential oracleC1 "TEST" "T" "C" none "p1" "T2" "C2" 5).1.2
      pageJsonV5 (some (.str "page-123")) rfl rfl rfl,
   (write_then_read_sequential oracleC1 "TEST" "T" "C" none "p1" "T2" "C2" 5).2.1⟩

/-- C9: `optimizeForAI` is extensionally the truncation pass at the default
bound of 8000 characters. -/
theorem optimizeForAI_eq_truncate_default (s : String) :
    optimizeForAI s = truncateContent s 8000 := rfl

/-- C10 (counterexample): page normalization is not total on every raw JSON
object: a payload whose ancestor chain contains `null` throws (reading
`.id` of a null element), refuting the never-throws part of the claim. -/
theorem cleanPage_total_counterexample :
    cleanPage (.obj [("ancestors", .arr [.null])]) = .error () := rfl

/-- C10 (amended): on payloads whose optional blocks are absent (or whose
version number is zero) normalization succeeds with the claimed defaults:
version 1, empty space key, empty identity and link fields, absent
parentId — but it is not total on arbitrary JSON (see the counterexample). -/
theorem cleanPage_defaults_on_missing_fields (i t : String) :
    cleanPage (.obj [("id", .str i), ("title", .str t)]) = .ok
      { id := some (.str i), title := some (.str t), spaceKey := "",
        version := .num 1, content := "", created := none, updated := none,
        createdBy := { id := .str "", displayName := .str "", email := none },
        updatedBy := { id := .str "", displayName := .str "", email := none },
        links := { webui := .str "", edit := .str "", tinyui := .str "" },
        parentId := none, childrenIds := none, labels := none } ∧
    cleanPage (.obj [("version", .obj [("number", .num 0)])]) = .ok
      { id := none, title := none, spaceKey := "",
        version := .num 1, content := "", created := none, updated := none,
        createdBy := { id := .str "", displayName := .str "", email := none },
        updatedBy := { id := .str "", displayName := .str "", email := none },
        links := { webui := .str "", edit := .str "", tinyui := .str "" },
        parentId := none, childrenIds := none, labels := none } :=
  ⟨rfl, rfl⟩
